import Mathlib

/-!
Verification development for `src/Python/src/create_database.py` of the
flySleepML repository.

The script converts two kinds of tab-separated text inputs into two tables:

* `parse_details` reads the fly-details file (header row with columns
  Monitor, Channel, Genotype, Sex, Treatment) and produces the fly-metadata
  table (one record per fly).
* `parse_monitor_file` reads one monitor activity log (no header, 42 columns
  per row: 10 fixed fields followed by 32 channel columns) and reshapes it
  into a long time-series table.
* `main` concatenates the per-monitor tables, sorts them by
  (datetime, monitor, channel), and demonstrates an inner join against the
  metadata on (monitor, channel).

Modelling conventions (shallow embedding, faithful to the Python/pandas
source unless noted):

* Files are lists of rows; a row is a `List String` of its tab-separated
  cells.  A details file also carries its header row.
* `pd.read_csv` converts a fixed set of sentinel strings (including "NA")
  to missing values (NaN).  We model a read cell as `Option String`
  (`none` = NaN), using pandas' documented default `na_values` list.
* Python `int(...)` / `.astype(int)` on a string is modelled by `pyInt?`:
  surrounding whitespace is stripped, an optional sign is allowed, and the
  remainder must be a nonempty digit string (numeric underscores and float
  literals are outside the modelled input domain: all channel cells of the
  monitor files are integer literals).
* `Series.str.replace('ch', '')` deletes every (non-overlapping, left to
  right) occurrence of the substring "ch"; it does not test for a leading
  "ch".  This is modelled by `replaceCh`.
* `pd.to_datetime(..., format='%d %b %y %H:%M:%S')` is modelled by
  `parseDT`: 1-2 digit day, case-insensitive three-letter month
  abbreviation, exactly-2-digit year (strptime's `%y` matches two digits;
  00-68 maps to 20xx, 69-99 to 19xx), and an `HH:MM:SS` time, with
  calendar validation of the day.  A missing (NaN) date or time cell does
  not raise: the concatenation is NaN and `to_datetime` yields NaT; such
  rows carry `none` instead of a timestamp (`dtStep`).
* `read_csv` infers the column count from the first row: a row with more
  fields raises a tokenizer error, a row with fewer fields is padded with
  NaN on the right (`getCell` reads a padded position as "", which
  `readCell` turns into a missing value).  `df.columns = columns` then
  raises unless the inferred width is exactly 42 (`widthsOK`).
* A channel cell is read through the NA conversion as well (`cellVal?`):
  a sentinel cell is NaN — it compares `NaN > 0 = False` without raising,
  and `int(NaN)` raises only if the record is actually emitted through
  another positive value — while a non-sentinel non-numeric cell raises
  when the reshape consumes it.  Cells of rows the reshape never consumes
  are not read as values by the loop; their pandas effect is indirect
  (column dtype), outside this per-cell value model.
* `groupby(['id','date','time'])` groups on the raw cell triple and, as
  pandas does by default, drops rows whose key contains a missing value
  (`groupRows`).  pandas iterates groups in sorted key order; we iterate
  in first-occurrence order.  The difference is unobservable in every
  claim below: record multisets agree, the order inside a group (which
  decides `iloc[0]`) agrees, and the combiner sort normalises the final
  order.
* Failure of the run (an uncaught Python exception) is modelled by
  `Option`: `none` means the run aborts with no output.
-/

set_option maxRecDepth 8192

namespace FlySleep

/-- A calendar timestamp with second precision, as produced by
`pd.to_datetime` on `date + ' ' + time`. -/
structure DateTime where
  year : Nat
  month : Nat
  day : Nat
  hour : Nat
  minute : Nat
  second : Nat
  deriving DecidableEq

/-- One row of the time-series table: `datetime, monitor, channel, mt, ct, pn`
(see the dict literal appended to `time_series_list`). -/
structure TSRecord where
  datetime : DateTime
  monitor : Int
  channel : Nat
  mt : Int
  ct : Int
  pn : Int
  deriving DecidableEq

/-- One row of the fly-metadata table:
`monitor, channel, fly_id, genotype, sex, treatment`.
String-valued cells are `Option String` because `pd.read_csv` turns the
sentinel strings of `naValues` into missing values (NaN), modelled `none`. -/
structure FlyMetadataRecord where
  monitor : Int
  channel : Int
  fly_id : String
  genotype : Option String
  sex : Option String
  treatment : Option String
  deriving DecidableEq

/-- The details file as read by `pd.read_csv(filepath, sep='\t')`:
a header row naming the columns, then the data rows. -/
structure DetailsFile where
  header : List String
  rows : List (List String)
  deriving DecidableEq

/-- Map an optional computation over a list, failing if any element fails.
This is the effect of a raising operation applied across a pandas column:
one bad cell aborts the whole run. -/
def optMap {α β : Type} (f : α → Option β) : List α → Option (List β)
  | [] => some []
  | x :: xs =>
    match f x, optMap f xs with
    | some y, some ys => some (y :: ys)
    | _, _ => none

/-- Concatenate a list of lists (the flattening of the per-group record
lists into `time_series_list`). -/
def listJoin {α : Type} : List (List α) → List α
  | [] => []
  | l :: ls => l ++ listJoin ls

/-- Cell access by position; a position past the end of the row reads as an
empty cell (pandas pads short rows with NaN, and `readCell ""` is `none`). -/
def getCell (r : List String) (i : Nat) : String :=
  r.getD i ""

/-- The numeric value of a nonempty all-digit character list. -/
def digitsVal? (l : List Char) : Option Nat :=
  if l ≠ [] ∧ l.all Char.isDigit then
    some (l.foldl (fun a c => a * 10 + (c.toNat - 48)) 0)
  else none

/-- Whitespace characters stripped by Python `int(...)`. -/
def isWs (c : Char) : Bool :=
  c = ' ' ∨ c = '\t' ∨ c = '\n' ∨ c = '\r'

/-- Python `int(s)` on a string (also the per-cell effect of
`.astype(int)`): strip surrounding whitespace, allow one optional sign,
then require a nonempty digit string. `none` models the raised
`ValueError`. -/
def pyInt? (s : String) : Option Int :=
  let l := (((s.data.dropWhile isWs).reverse.dropWhile isWs).reverse)
  match l with
  | '-' :: rest => (digitsVal? rest).map (fun n => -(n : Int))
  | '+' :: rest => (digitsVal? rest).map (fun n => (n : Int))
  | rest => (digitsVal? rest).map (fun n => (n : Int))

/-- `str.replace('ch', '')` on the character list: delete every
non-overlapping occurrence of the two-character pattern, left to right. -/
def replaceChAux : List Char → List Char
  | [] => []
  | [c] => [c]
  | c :: d :: rest =>
    if c = 'c' ∧ d = 'h' then replaceChAux rest
    else c :: replaceChAux (d :: rest)

/-- `Series.str.replace('ch', '')` applied to one cell. -/
def replaceCh (s : String) : String :=
  String.mk (replaceChAux s.data)

/-- pandas' default `na_values` sentinels: `pd.read_csv` converts exactly
these cell strings to NaN (`keep_default_na=True`, the default, and the
script passes no `na_values`). -/
def naValues : List String :=
  ["", "#N/A", "#N/A N/A", "#NA", "-1.#IND", "-1.#QNAN", "-NaN", "-nan",
   "1.#IND", "1.#QNAN", "<NA>", "N/A", "NA", "NULL", "NaN", "None",
   "n/a", "nan", "null"]

/-- Reading one cell through `pd.read_csv`: sentinel strings become
missing values. -/
def readCell (s : String) : Option String :=
  if s ∈ naValues then none else some s

/-- Python format `f"{n:02d}"`: zero-pad to width 2 (the sign counts toward
the width, so all negative values are already at least 2 wide). -/
def pad2 (n : Int) : String :=
  if 0 ≤ n ∧ n < 10 then "0" ++ toString n else toString n

/-- The derived fly identifier `f"M{monitor}_Ch{channel:02d}"`. -/
def flyId (monitor channel : Int) : String :=
  "M" ++ toString monitor ++ "_Ch" ++ pad2 channel

/-- `df[name]` for the details frame: locate the column in the header and
read the row's cell there (with NaN conversion).  `none` models the
`KeyError` on a missing column. -/
def getCol (f : DetailsFile) (name : String) (row : List String) :
    Option (Option String) :=
  (f.header.findIdx? (fun h => h == name)).map (fun i => readCell (getCell row i))

/-- The columns the script reads from the details frame. -/
def requiredCols : List String :=
  ["Monitor", "Channel", "Genotype", "Sex", "Treatment"]

/-- Per-row core of `parse_details`: `monitor = int(Monitor)`,
`channel = int(Channel.replace('ch',''))`,
`fly_id = f"M{monitor}_Ch{channel:02d}"`, and Genotype/Sex/Treatment are
carried over as read.  `none` models the exception raised by `.astype(int)`
(a NaN or non-numeric cell). -/
def parseDetailsRow (f : DetailsFile) (row : List String) :
    Option FlyMetadataRecord :=
  match getCol f "Monitor" row, getCol f "Channel" row, getCol f "Genotype" row,
        getCol f "Sex" row, getCol f "Treatment" row with
  | some mCell, some cCell, some gCell, some sCell, some tCell =>
    match mCell, cCell with
    | some mStr, some cStr =>
      match pyInt? mStr, pyInt? (replaceCh cStr) with
      | some monitor, some channel =>
          some ⟨monitor, channel, flyId monitor channel, gCell, sCell, tCell⟩
      | _, _ => none
    | _, _ => none
  | _, _, _, _, _ => none

/-- `parse_details`: check the required columns exist (else `KeyError`, even
for an empty frame), convert every row, then keep the rows whose genotype
is not the *string* "NA".  Note the filter compares against the string
after `read_csv` has already turned the cell "NA" into NaN, so a NaN
genotype passes the filter. -/
def parse_details (f : DetailsFile) : Option (List FlyMetadataRecord) :=
  if requiredCols.all (fun c => decide (c ∈ f.header)) then
    match optMap (parseDetailsRow f) f.rows with
    | some recs => some (recs.filter (fun r => decide (r.genotype ≠ some "NA")))
    | none => none
  else none

/-- Split a character list on a separator character (every occurrence,
keeping empty pieces), like Python `str.split(sep)`. -/
def splitChar (sep : Char) : List Char → List (List Char)
  | [] => [[]]
  | c :: rest =>
    if c = sep then [] :: splitChar sep rest
    else
      match splitChar sep rest with
      | [] => [[c]]
      | h :: t => (c :: h) :: t

/-- Month number of a three-letter abbreviation; `strptime`'s `%b` is
case-insensitive. -/
def monthNum? (l : List Char) : Option Nat :=
  match String.mk (l.map Char.toLower) with
  | "jan" => some 1
  | "feb" => some 2
  | "mar" => some 3
  | "apr" => some 4
  | "may" => some 5
  | "jun" => some 6
  | "jul" => some 7
  | "aug" => some 8
  | "sep" => some 9
  | "oct" => some 10
  | "nov" => some 11
  | "dec" => some 12
  | _ => none

/-- A 1- or 2-digit numeric field (`%d`, `%H`, `%M`, `%S` each match one
or two digits). -/
def num2? (l : List Char) : Option Nat :=
  if l.length ≤ 2 then digitsVal? l else none

/-- An exactly-2-digit numeric field: strptime's `%y` matches precisely two
digits. -/
def num2exact? (l : List Char) : Option Nat :=
  if l.length = 2 then digitsVal? l else none

/-- `%y`: two-digit years 00-68 are 2000-2068, 69-99 are 1969-1999. -/
def yearOf (yy : Nat) : Nat :=
  if yy ≤ 68 then 2000 + yy else 1900 + yy

/-- Length of a month, for the calendar validation done by the datetime
parser (e.g. "31 Feb 24" raises). -/
def daysInMonth (y m : Nat) : Nat :=
  if m = 2 then
    if y % 4 = 0 ∧ (y % 100 ≠ 0 ∨ y % 400 = 0) then 29 else 28
  else if m = 4 ∨ m = 6 ∨ m = 9 ∨ m = 11 then 30 else 31

/-- `pd.to_datetime(date + ' ' + time, format='%d %b %y %H:%M:%S')` for one
row.  `none` models the raised parse error, which aborts the run before any
filtering (the conversion runs over the whole column). -/
def parseDT (dateS timeS : String) : Option DateTime :=
  match (splitChar ' ' dateS.data).filter (fun p => decide (p ≠ [])) with
  | [dTok, monTok, yTok] =>
    match num2? dTok, monthNum? monTok, num2exact? yTok,
          splitChar ':' timeS.data with
    | some dd, some mm, some yy, [hTok, miTok, sTok] =>
      match num2? hTok, num2? miTok, num2? sTok with
      | some hh, some mi, some ss =>
        let y := yearOf yy
        if 1 ≤ dd ∧ dd ≤ daysInMonth y mm ∧ hh ≤ 23 ∧ mi ≤ 59 ∧ ss ≤ 59 then
          some ⟨y, mm, dd, hh, mi, ss⟩
        else none
      | _, _, _ => none
    | _, _, _, _ => none
  | _ => none

/-- The movement-type cell: column index 7 of a monitor row
(`id, date, time, port, unknown1, unknown2, unknown3, movement_type, ...`). -/
def movementOf (r : List String) : String :=
  getCell r 7

/-- The three recognised movement-type codes (`movement_types` in the
source); all other rows are discarded by the filter. -/
def recognized : List String :=
  ["MT", "CT", "Pn"]

/-- The grouping key of `groupby(['id', 'date', 'time'])`: the raw cells of
columns 0, 1, 2. -/
def keyOf (r : List String) : List String :=
  [getCell r 0, getCell r 1, getCell r 2]

/-- The monitor frame is read against a 42-column layout: `read_csv`
infers the column count from the first row (raising on any later row with
more fields, padding shorter rows with NaN), and `df.columns = columns`
assigns the 42 names `id, date, time, port, unknown1, unknown2, unknown3,
movement_type, zero1, zero2, ch1, ..., ch32`, raising unless the inferred
width is exactly 42.  An empty file raises in `read_csv` itself. -/
def widthsOK (rows : List (List String)) : Bool :=
  match rows with
  | [] => false
  | r0 :: rest =>
    decide (r0.length = 42) && rest.all (fun r => decide (r.length ≤ 42))

/-- Attach the parsed datetime to every row (the `pd.to_datetime` column
assignment): a missing (NaN-padded or sentinel) date or time cell makes
the concatenation NaN, which `to_datetime` maps to NaT (`none`) without
raising; a present but unparseable date or time aborts the run. -/
def dtStep (rows : List (List String)) :
    Option (List (List String × Option DateTime)) :=
  optMap (fun r =>
    match readCell (getCell r 1), readCell (getCell r 2) with
    | some d, some t => (parseDT d t).map (fun dt => (r, some dt))
    | _, _ => some (r, none)) rows

/-- The movement-type filter `df['movement_type'].isin(['MT','CT','Pn'])`
(a missing movement-type cell is NaN, which `isin` rejects, like any
unrecognised code). -/
def keptOf (l : List (List String × Option DateTime)) :
    List (List String × Option DateTime) :=
  l.filter (fun rd => decide (movementOf rd.1 ∈ recognized))

/-- A grouping key free of missing values: `groupby` drops rows whose
(id, date, time) key contains NaN. -/
def keyClean (r : List String) : Bool :=
  (keyOf r).all (fun s => decide (s ∉ naValues))

/-- The rows that reach the groups: `groupby(['id','date','time'])`
excludes rows with a missing key component.  A surviving row's datetime is
always a real timestamp, since a NaT datetime comes from a missing date or
time cell, which also voids the key. -/
def groupRows (l : List (List String × Option DateTime)) :
    List (List String × DateTime) :=
  l.filterMap (fun rd =>
    match rd.2 with
    | some dt => if keyClean rd.1 then some (rd.1, dt) else none
    | none => none)

/-- The distinct grouping keys of the kept rows, in first-occurrence
order. -/
def uniqKeys (l : List (List String × DateTime)) : List (List String) :=
  l.foldl (fun acc rd => if keyOf rd.1 ∈ acc then acc else acc ++ [keyOf rd.1]) []

/-- The groups of `groupby(['id','date','time'])`: for each key, the kept
rows carrying that key, in file order (pandas preserves the original order
inside each group). -/
def groupsOf (l : List (List String × DateTime)) :
    List (List (List String × DateTime)) :=
  (uniqKeys l).map (fun k => l.filter (fun rd => decide (keyOf rd.1 = k)))

/-- `group[group['movement_type'] == t].iloc[0]` guarded by the membership
test: the first row of the group with movement type `t`, if any. -/
def firstOfType (g : List (List String × DateTime)) (t : String) :
    Option (List String) :=
  (g.find? (fun rd => decide (movementOf rd.1 = t))).map Prod.fst

/-- Channel `c`'s cell sits at column index `9 + c` (columns 10-41 are
ch1-ch32). -/
def chIdx (c : Nat) : Nat :=
  9 + c

/-- One channel cell as the loop sees it: an NA-sentinel cell was turned
into NaN by `read_csv` (`some none` — it exists but is missing), an
integer literal is its value (`some (some v)`), and any other string
raises when consumed (`none`), as the comparison `str > int` (or the
later `int(str)`) does. -/
def cellVal? (s : String) : Option (Option Int) :=
  if s ∈ naValues then some none else (pyInt? s).map some

/-- The value used for one movement type at one channel: the literal
integer 0 when the group has no row of that type, else the row's channel
cell as read by `cellVal?`. -/
def readVal (row? : Option (List String)) (c : Nat) : Option (Option Int) :=
  match row? with
  | none => some (some 0)
  | some r => cellVal? (getCell r (chIdx c))

/-- One iteration of the inner reshape loop for channel `c` of one group:
`mt_val > 0 or ct_val > 0 or pn_val > 0` — NaN fails every comparison
without raising, a raising value aborts — and on emission each value goes
through `int(...)`, which raises on NaN; an unemitted candidate is
dropped silently. -/
def emitChannel (m : Int) (dt : DateTime) (g : List (List String × DateTime))
    (c : Nat) : Option (List TSRecord) :=
  match readVal (firstOfType g "MT") c, readVal (firstOfType g "CT") c,
        readVal (firstOfType g "Pn") c with
  | some mtv, some ctv, some pnv =>
    if mtv.getD 0 > 0 ∨ ctv.getD 0 > 0 ∨ pnv.getD 0 > 0 then
      match mtv, ctv, pnv with
      | some mt, some ct, some pn => some [⟨dt, m, c, mt, ct, pn⟩]
      | _, _, _ => none
    else some []
  | _, _, _ => none

/-- The records of one group: `datetime` is the first row's datetime
(`group['datetime'].iloc[0]`), and channels 1..32 are visited in order.
The empty group never arises from `groupby`; it is mapped to the error
its `iloc[0]` would raise. -/
def emitGroup (m : Int) (g : List (List String × DateTime)) :
    Option (List TSRecord) :=
  match g with
  | [] => none
  | (_, dt) :: _ =>
    (optMap (emitChannel m dt g) (List.range' 1 32)).map listJoin

/-- `parse_monitor_file(filepath, monitor_num)`: column-count check, datetime
conversion, movement-type filter, group-and-reshape.  `none` models the
aborted run. -/
def parse_monitor_file (rows : List (List String)) (monitor_num : Int) :
    Option (List TSRecord) :=
  if widthsOK rows then
    match dtStep rows with
    | some w =>
      match optMap (emitGroup monitor_num) (groupsOf (groupRows (keptOf w))) with
      | some recLists => some (listJoin recLists)
      | none => none
    | none => none
  else none

/-- Numeric key of a timestamp: strictly monotone in the lexicographic
order of (year, month, day, hour, minute, second) on the in-range values
produced by `parseDT`, so sorting by it is sorting by the datetime. -/
def dtKey (dt : DateTime) : Nat :=
  ((((dt.year * 12 + dt.month) * 32 + dt.day) * 24 + dt.hour) * 60 + dt.minute) * 60
    + dt.second

/-- The sort key order of
`sort_values(['datetime', 'monitor', 'channel'])`: lexicographic on
(datetime, monitor, channel). -/
def tsLE (a b : TSRecord) : Prop :=
  dtKey a.datetime < dtKey b.datetime ∨
    (dtKey a.datetime = dtKey b.datetime ∧
      (a.monitor < b.monitor ∨ (a.monitor = b.monitor ∧ a.channel ≤ b.channel)))

instance : DecidableRel tsLE := fun a b => by
  unfold tsLE; exact inferInstance

instance : IsTotal TSRecord tsLE :=
  ⟨fun a b => by unfold tsLE; omega⟩

instance : IsTrans TSRecord tsLE :=
  ⟨fun a b c => by unfold tsLE; omega⟩

/-- The combiner's sort step (`sort_values` with a multi-column key is a
stable sort). -/
def sortTS (l : List TSRecord) : List TSRecord :=
  List.insertionSort tsLE l

/-- `pd.concat([monitor5_data, monitor6_data])` followed by the sort:
the persisted `time_series_data` table. -/
def combine (monitor5_data monitor6_data : List TSRecord) : List TSRecord :=
  sortTS (monitor5_data ++ monitor6_data)

/-- The merge condition of
`time_series_data.merge(fly_metadata, on=['monitor', 'channel'])`. -/
def matchKey (t : TSRecord) (m : FlyMetadataRecord) : Prop :=
  m.monitor = t.monitor ∧ m.channel = (t.channel : Int)

instance (t : TSRecord) (m : FlyMetadataRecord) : Decidable (matchKey t m) := by
  unfold matchKey; exact inferInstance

/-- The demonstration inner join: each time-series row is paired with every
metadata row sharing its (monitor, channel); unmatched time-series rows
contribute nothing. -/
def joinTS : List TSRecord → List FlyMetadataRecord →
    List (TSRecord × FlyMetadataRecord)
  | [], _ => []
  | t :: ts, md =>
    (md.filter (fun m => decide (matchKey t m))).map (fun m => (t, m)) ++ joinTS ts md

/-- Two metadata records with different (monitor, channel) keys: the
uniqueness relation of the natural key. -/
def mdKeyNe (a b : FlyMetadataRecord) : Prop :=
  (a.monitor, a.channel) ≠ (b.monitor, b.channel)

/-! ### Concrete inputs used by the claim theorems -/

/-- A monitor-log row in the 42-column layout: the 10 fixed cells followed
by the supplied channel cells. -/
def mkRow (id date time mtype : String) (chs : List String) : List String :=
  [id, date, time, "1", "0", "0", "0", mtype, "0", "0"] ++ chs

/-- 32 channel cells with the given value on channel 1 and zeros elsewhere. -/
def ch1val (v : String) : List String :=
  v :: List.replicate 31 "0"

/-- The details header of `details.txt`. -/
def exHeader : List String :=
  ["Monitor", "Channel", "Genotype", "Sex", "Treatment"]

def c1MT : List String := mkRow "1" "01 Jan 24" "00:00:00" "MT" (ch1val "5")

def c1CT : List String := mkRow "1" "01 Jan 24" "00:00:00" "CT" (ch1val "2")

def c1dt : DateTime := ⟨2024, 1, 1, 0, 0, 0⟩

/-- The single record the C1 example must produce. -/
def c1Rec : TSRecord := ⟨c1dt, 5, 1, 5, 2, 0⟩

def c3rec5 : TSRecord := ⟨⟨2024, 1, 2, 0, 0, 0⟩, 5, 1, 3, 0, 0⟩

def c3rec6 : TSRecord := ⟨⟨2024, 1, 1, 0, 0, 0⟩, 6, 1, 4, 0, 0⟩

/-- A details file whose single row has Genotype "NA" (an unused channel). -/
def c5File : DetailsFile :=
  ⟨exHeader, [["5", "ch3", "NA", "M", "ctrl"]]⟩

/-- A details file repeating the (Monitor, Channel) pair (5, ch3). -/
def c6DupFile : DetailsFile :=
  ⟨exHeader, [["5", "ch3", "w1118", "M", "ctrl"], ["5", "ch3", "w1118", "F", "ctrl"]]⟩

def c6RecM : FlyMetadataRecord := ⟨5, 3, "M5_Ch03", some "w1118", some "M", some "ctrl"⟩

def c6RecF : FlyMetadataRecord := ⟨5, 3, "M5_Ch03", some "w1118", some "F", some "ctrl"⟩

/-- A monitor row whose only active channel is ch3 (value 4). -/
def c7Row : List String :=
  mkRow "1" "01 Jan 24" "00:00:00" "MT" (["0", "0", "4"] ++ List.replicate 29 "0")

def c7Rec : TSRecord := ⟨c1dt, 5, 3, 4, 0, 0⟩

/-- A 42-column monitor row with channel 1 = 7 and channel 32 = 9. -/
def c9Row : List String :=
  mkRow "1" "01 Jan 24" "00:00:00" "MT" ("7" :: (List.replicate 30 "0" ++ ["9"]))

/-- A 41-column row: the layout the claim describes, with 9 fixed fields
before the movement type and 32 channel cells. -/
def c9Row41 : List String :=
  ["1", "01 Jan 24", "00:00:00", "1", "0", "0", "0", "MT", "0"] ++
    ("7" :: List.replicate 31 "0")

def c10MTfirst : List String := mkRow "1" "01 Jan 24" "00:00:00" "MT" (ch1val "7")

def c10MTdup : List String := mkRow "1" "01 Jan 24" "00:00:00" "MT" (ch1val "9")

def c10CT : List String := mkRow "1" "01 Jan 24" "00:00:00" "CT" (ch1val "1")

/-! ### General helper lemmas -/

theorem optMap_mem {α β : Type} {f : α → Option β} :
    ∀ {l : List α} {out : List β}, optMap f l = some out →
      ∀ {y : β}, y ∈ out → ∃ x ∈ l, f x = some y := by
  intro l
  induction l with
  | nil => intro out h y hy; rw [optMap] at h; injection h with h; subst h; cases hy
  | cons x xs ih =>
    intro out h y hy
    rw [optMap] at h
    cases hfx : f x with
    | none => rw [hfx] at h; cases h
    | some z =>
      rw [hfx] at h
      cases hrest : optMap f xs with
      | none => rw [hrest] at h; cases h
      | some ys =>
        rw [hrest] at h
        injection h with h; subst h
        rcases List.mem_cons.1 hy with rfl | hmem
        · exact ⟨x, List.mem_cons_self x xs, hfx⟩
        · obtain ⟨x', hx', hfx'⟩ := ih hrest hmem
          exact ⟨x', List.mem_cons_of_mem x hx', hfx'⟩

theorem optMap_congr {α β : Type} {f g : α → Option β} :
    ∀ {l : List α}, (∀ x ∈ l, f x = g x) → optMap f l = optMap g l := by
  intro l
  induction l with
  | nil => intro _; rfl
  | cons a l ih =>
    intro h
    rw [optMap, optMap, h a (List.mem_cons_self a l), ih (fun x hx => h x (List.mem_cons_of_mem a hx))]

theorem listJoin_mem {α : Type} :
    ∀ {L : List (List α)} {y : α}, y ∈ listJoin L ↔ ∃ l ∈ L, y ∈ l := by
  intro L
  induction L with
  | nil => intro y; simp [listJoin]
  | cons l ls ih => intro y; simp [listJoin, List.mem_append, ih]

theorem string_mk_data : ∀ s : String, String.mk s.data = s
  | ⟨_⟩ => rfl

theorem replaceChAux_digits :
    ∀ l : List Char, (∀ c ∈ l, c.isDigit) → replaceChAux l = l
  | [], _ => rfl
  | [_], _ => rfl
  | c :: d :: rest, h => by
    rw [replaceChAux]
    have hc : c.isDigit := h c (by simp)
    have hne : ¬(c = 'c' ∧ d = 'h') := by
      rintro ⟨rfl, -⟩
      simp at hc
    rw [if_neg hne]
    rw [replaceChAux_digits (d :: rest) (fun x hx => h x (List.mem_cons_of_mem c hx))]

theorem replaceCh_digits {s : String} (h : ∀ c ∈ s.data, c.isDigit) :
    replaceCh ("ch" ++ s) = s := by
  unfold replaceCh
  have hdata : ("ch" ++ s).data = 'c' :: 'h' :: s.data := by
    rw [String.data_append]; rfl
  rw [hdata, replaceChAux, if_pos ⟨rfl, rfl⟩, replaceChAux_digits s.data h,
    string_mk_data]

/-! ### Structure lemmas for the monitor-log parser -/

theorem emitChannel_spec {m : Int} {dt : DateTime}
    {g : List (List String × DateTime)} {c : Nat} {l : List TSRecord}
    {r : TSRecord} (h : emitChannel m dt g c = some l) (hr : r ∈ l) :
    ∃ mtv ctv pnv : Int,
      readVal (firstOfType g "MT") c = some (some mtv) ∧
      readVal (firstOfType g "CT") c = some (some ctv) ∧
      readVal (firstOfType g "Pn") c = some (some pnv) ∧
      (mtv > 0 ∨ ctv > 0 ∨ pnv > 0) ∧ r = ⟨dt, m, c, mtv, ctv, pnv⟩ := by
  unfold emitChannel at h
  cases hmt : readVal (firstOfType g "MT") c with
  | none => rw [hmt] at h; cases h
  | some mtv =>
    rw [hmt] at h
    cases hct : readVal (firstOfType g "CT") c with
    | none => rw [hct] at h; cases h
    | some ctv =>
      rw [hct] at h
      cases hpn : readVal (firstOfType g "Pn") c with
      | none => rw [hpn] at h; cases h
      | some pnv =>
        rw [hpn] at h
        dsimp only at h
        by_cases hg : mtv.getD 0 > 0 ∨ ctv.getD 0 > 0 ∨ pnv.getD 0 > 0
        · rw [if_pos hg] at h
          cases mtv with
          | none => cases h
          | some mt =>
            cases ctv with
            | none => cases h
            | some ct =>
              cases pnv with
              | none => cases h
              | some pn =>
                injection h with h; subst h
                rcases List.mem_singleton.1 hr with rfl
                exact ⟨mt, ct, pn, rfl, rfl, rfl, by simpa using hg, rfl⟩
        · rw [if_neg hg] at h
          injection h with h; subst h
          cases hr

theorem emitGroup_spec {m : Int} {g : List (List String × DateTime)}
    {l : List TSRecord} {r : TSRecord}
    (h : emitGroup m g = some l) (hr : r ∈ l) :
    ∃ dt c lc, c ∈ List.range' 1 32 ∧ emitChannel m dt g c = some lc ∧ r ∈ lc := by
  match g, h with
  | (r0, dt) :: rest, h =>
    rw [emitGroup] at h
    cases hom : optMap (emitChannel m dt ((r0, dt) :: rest)) (List.range' 1 32) with
    | none => rw [hom] at h; cases h
    | some ls =>
      rw [hom] at h
      injection h with h; subst h
      obtain ⟨lc, hlc, hrlc⟩ := listJoin_mem.1 hr
      obtain ⟨c, hc, hce⟩ := optMap_mem hom hlc
      exact ⟨dt, c, lc, hc, hce, hrlc⟩

theorem parse_monitor_mem {rows : List (List String)} {m : Int}
    {out : List TSRecord} {r : TSRecord}
    (h : parse_monitor_file rows m = some out) (hr : r ∈ out) :
    ∃ w g l, dtStep rows = some w ∧ g ∈ groupsOf (groupRows (keptOf w)) ∧
      emitGroup m g = some l ∧ r ∈ l := by
  unfold parse_monitor_file at h
  by_cases hwidth : widthsOK rows = true
  · rw [if_pos hwidth] at h
    cases hw : dtStep rows with
    | none => rw [hw] at h; cases h
    | some w =>
      rw [hw] at h
      dsimp only at h
      cases hom : optMap (emitGroup m) (groupsOf (groupRows (keptOf w))) with
      | none => rw [hom] at h; cases h
      | some recLists =>
        rw [hom] at h
        injection h with h; subst h
        obtain ⟨l, hl, hrl⟩ := listJoin_mem.1 hr
        obtain ⟨g, hg, hge⟩ := optMap_mem hom hl
        exact ⟨w, g, l, rfl, hg, hge, hrl⟩
  · rw [if_neg hwidth] at h; cases h

theorem groupRows_fst_mem {l : List (List String × Option DateTime)}
    {rd : List String × DateTime} (h : rd ∈ groupRows l) :
    ∃ rd' ∈ l, rd'.1 = rd.1 := by
  unfold groupRows at h
  obtain ⟨rd', hrd', hf⟩ := List.mem_filterMap.1 h
  refine ⟨rd', hrd', ?_⟩
  cases hd : rd'.2 with
  | none => rw [hd] at hf; cases hf
  | some dt =>
    rw [hd] at hf
    dsimp only at hf
    by_cases hk : keyClean rd'.1 = true
    · rw [if_pos hk] at hf
      injection hf with hf
      rw [← hf]
    · rw [if_neg hk] at hf; cases hf

theorem group_row_mem {rows : List (List String)}
    {w : List (List String × Option DateTime)}
    {g : List (List String × DateTime)} {rd : List String × DateTime}
    (hw : dtStep rows = some w) (hg : g ∈ groupsOf (groupRows (keptOf w)))
    (hrd : rd ∈ g) : rd.1 ∈ rows := by
  unfold groupsOf at hg
  obtain ⟨k, _, rfl⟩ := List.mem_map.1 hg
  have h0 : rd ∈ groupRows (keptOf w) := (List.mem_filter.1 hrd).1
  obtain ⟨rd', hrd', hfst⟩ := groupRows_fst_mem h0
  have h2 : rd' ∈ w := (List.mem_filter.1 hrd').1
  obtain ⟨x, hx, hfx⟩ := optMap_mem hw h2
  rw [← hfst]
  cases hd : readCell (getCell x 1) with
  | none =>
    rw [hd] at hfx
    injection hfx with hfx
    rw [← hfx]
    exact hx
  | some d =>
    rw [hd] at hfx
    cases ht : readCell (getCell x 2) with
    | none =>
      rw [ht] at hfx
      injection hfx with hfx
      rw [← hfx]
      exact hx
    | some t =>
      rw [ht] at hfx
      dsimp only at hfx
      cases hdt : parseDT d t with
      | none => rw [hdt] at hfx; cases hfx
      | some dt =>
        rw [hdt] at hfx
        injection hfx with hfx
        rw [← hfx]
        exact hx

/-! ### Claim theorems -/

/-- C1: per-group, per-type provenance of every emitted record.  Every
TimeSeriesRecord of a successful parse comes from one (id, date, time)
group and one channel 1..32, and each of its three fields mt, ct, pn is
taken from the group's first row of that movement type — that row's
channel cell, read through the NA conversion — while a movement type with
no row in the group contributes the literal 0 rather than an error.  On
the claim's concrete input — an MT row with ch1=5 and a CT row with
ch1=2, no Pn row — the parser yields exactly one record
⟨2024-01-01T00:00:00, channel 1, mt 5, ct 2, pn 0⟩ and no record for
channel 2. -/
theorem c1_per_type_provenance :
    (∀ rows (m : Int) out, parse_monitor_file rows m = some out →
      ∀ r ∈ out, ∃ w g, dtStep rows = some w ∧
        g ∈ groupsOf (groupRows (keptOf w)) ∧
        1 ≤ r.channel ∧ r.channel ≤ 32 ∧
        (∀ rowT, firstOfType g "MT" = some rowT →
            cellVal? (getCell rowT (chIdx r.channel)) = some (some r.mt)) ∧
        (firstOfType g "MT" = none → r.mt = 0) ∧
        (∀ rowT, firstOfType g "CT" = some rowT →
            cellVal? (getCell rowT (chIdx r.channel)) = some (some r.ct)) ∧
        (firstOfType g "CT" = none → r.ct = 0) ∧
        (∀ rowT, firstOfType g "Pn" = some rowT →
            cellVal? (getCell rowT (chIdx r.channel)) = some (some r.pn)) ∧
        (firstOfType g "Pn" = none → r.pn = 0)) ∧
    parse_monitor_file [c1MT, c1CT] 5 = some [c1Rec] := by
  constructor
  · intro rows m out hparse r hr
    obtain ⟨w, g, l, hw, hg, hge, hrl⟩ := parse_monitor_mem hparse hr
    obtain ⟨dt, c, lc, hcmem, hce, hrlc⟩ := emitGroup_spec hge hrl
    obtain ⟨mtv, ctv, pnv, hmt, hct, hpn, _, rfl⟩ := emitChannel_spec hce hrlc
    have hbounds : 1 ≤ c ∧ c < 1 + 32 := List.mem_range'_1.1 hcmem
    have mk : ∀ (t : String) (v : Int),
        readVal (firstOfType g t) c = some (some v) →
        (∀ rowT, firstOfType g t = some rowT →
            cellVal? (getCell rowT (chIdx c)) = some (some v)) ∧
        (firstOfType g t = none → v = 0) := by
      intro t v hv
      constructor
      · intro rowT hf
        rw [hf] at hv
        simp only [readVal] at hv
        exact hv
      · intro hf
        rw [hf] at hv
        simp only [readVal, Option.some.injEq] at hv
        exact hv.symm
    have hc32 : c ≤ 32 := by omega
    exact ⟨w, g, hw, hg, hbounds.1, hc32,
      (mk "MT" mtv hmt).1, (mk "MT" mtv hmt).2,
      (mk "CT" ctv hct).1, (mk "CT" ctv hct).2,
      (mk "Pn" pnv hpn).1, (mk "Pn" pnv hpn).2⟩
  · decide

/-- C2: a record is emitted only when at least one of mt, ct, pn is
positive — for every record of any successful `parse_monitor_file` run,
and hence for every row of the persisted combined table
`combine out5 out6`; an all-zero channel-timestamp yields no record. -/
theorem c2_no_all_zero_records :
    (∀ rows m out, parse_monitor_file rows m = some out →
        ∀ r ∈ out, r.mt > 0 ∨ r.ct > 0 ∨ r.pn > 0) ∧
    (∀ rows5 rows6 out5 out6, parse_monitor_file rows5 5 = some out5 →
        parse_monitor_file rows6 6 = some out6 →
        ∀ r ∈ combine out5 out6, r.mt > 0 ∨ r.ct > 0 ∨ r.pn > 0) := by
  have main : ∀ rows (m : Int) out, parse_monitor_file rows m = some out →
      ∀ r ∈ out, r.mt > 0 ∨ r.ct > 0 ∨ r.pn > 0 := by
    intro rows m out hparse r hr
    obtain ⟨w, g, l, hw, hg, hge, hrl⟩ := parse_monitor_mem hparse hr
    obtain ⟨dt, c, lc, _, hce, hrlc⟩ := emitGroup_spec hge hrl
    obtain ⟨mtv, ctv, pnv, _, _, _, hguard, rfl⟩ := emitChannel_spec hce hrlc
    exact hguard
  refine ⟨main, ?_⟩
  intro rows5 rows6 out5 out6 h5 h6 r hr
  have hr' : r ∈ out5 ++ out6 := by
    unfold combine sortTS at hr
    exact (List.mem_insertionSort tsLE).1 hr
  rcases List.mem_append.1 hr' with h | h
  · exact main rows5 5 out5 h5 r h
  · exact main rows6 6 out6 h6 r h

/-- Witness for C1: the provenance statement instantiated on the claim's
example input and its single emitted record. -/
theorem c1_per_type_provenance_witness :
    ∃ w g, dtStep [c1MT, c1CT] = some w ∧
      g ∈ groupsOf (groupRows (keptOf w)) ∧
      1 ≤ c1Rec.channel ∧ c1Rec.channel ≤ 32 ∧
      (∀ rowT, firstOfType g "MT" = some rowT →
          cellVal? (getCell rowT (chIdx c1Rec.channel)) = some (some c1Rec.mt)) ∧
      (firstOfType g "MT" = none → c1Rec.mt = 0) ∧
      (∀ rowT, firstOfType g "CT" = some rowT →
          cellVal? (getCell rowT (chIdx c1Rec.channel)) = some (some c1Rec.ct)) ∧
      (firstOfType g "CT" = none → c1Rec.ct = 0) ∧
      (∀ rowT, firstOfType g "Pn" = some rowT →
          cellVal? (getCell rowT (chIdx c1Rec.channel)) = some (some c1Rec.pn)) ∧
      (firstOfType g "Pn" = none → c1Rec.pn = 0) :=
  c1_per_type_provenance.1 [c1MT, c1CT] 5 [c1Rec]
    c1_per_type_provenance.2 c1Rec (by simp)

/-- Witness for C2: a concrete successful parse whose single record
satisfies the disjunction. -/
theorem c2_no_all_zero_records_witness :
    (⟨c1dt, 5, 3, 4, 0, 0⟩ : TSRecord).mt > 0 ∨
      (⟨c1dt, 5, 3, 4, 0, 0⟩ : TSRecord).ct > 0 ∨
      (⟨c1dt, 5, 3, 4, 0, 0⟩ : TSRecord).pn > 0 :=
  c2_no_all_zero_records.1 [c7Row] 5 [c7Rec] (by decide) c7Rec (by simp)

/-- C3: the combined table — the concatenation of the per-monitor tables
followed by the sort step — is sorted non-decreasingly by the key
(datetime, monitor, channel); the sort step is the identity on an
already-sorted table; and a Monitor 6 record with an earlier timestamp
than a Monitor 5 record sorts before it. -/
theorem c3_combined_sorted :
    (∀ l5 l6 : List TSRecord, (combine l5 l6).Sorted tsLE) ∧
    (∀ l : List TSRecord, l.Sorted tsLE → sortTS l = l) ∧
    combine [c3rec5] [c3rec6] = [c3rec6, c3rec5] := by
  refine ⟨?_, ?_, by decide⟩
  · intro l5 l6
    unfold combine sortTS
    exact List.sorted_insertionSort tsLE (l5 ++ l6)
  · intro l h
    unfold sortTS
    exact h.insertionSort_eq

/-- Witness for C3: the idempotence conjunct applied to a concrete sorted
singleton table. -/
theorem c3_combined_sorted_witness : sortTS [c3rec5] = [c3rec5] :=
  c3_combined_sorted.2.1 [c3rec5] (List.sorted_singleton c3rec5)

theorem parseDetailsRow_flyId {f : DetailsFile} {row : List String}
    {rec : FlyMetadataRecord} (h : parseDetailsRow f row = some rec) :
    rec.fly_id = flyId rec.monitor rec.channel := by
  unfold parseDetailsRow at h
  repeat' split at h
  all_goals cases h
  rfl

theorem parse_details_mem {f : DetailsFile} {out : List FlyMetadataRecord}
    {rec : FlyMetadataRecord} (h : parse_details f = some out) (hrec : rec ∈ out) :
    ∃ row ∈ f.rows, parseDetailsRow f row = some rec := by
  unfold parse_details at h
  by_cases hcols : requiredCols.all (fun c => decide (c ∈ f.header)) = true
  · rw [if_pos hcols] at h
    cases hom : optMap (parseDetailsRow f) f.rows with
    | none => rw [hom] at h; cases h
    | some recs =>
      rw [hom] at h
      injection h with h; subst h
      exact optMap_mem hom (List.mem_filter.1 hrec).1
  · rw [if_neg hcols] at h; cases h

/-- C4: every retained metadata record's fly_id is
"M" ++ monitor ++ "_Ch" ++ channel zero-padded to width 2; and for a row
in the expected shape — Channel of the form "ch" followed by digits, the
remaining cells ordinary strings — monitor is the integer value of
Monitor, channel is the integer obtained by stripping the "ch" from
Channel, and genotype, sex, treatment are copied verbatim. -/
theorem c4_fly_id_format :
    (∀ f out, parse_details f = some out → ∀ rec ∈ out,
        rec.fly_id = "M" ++ toString rec.monitor ++ "_Ch" ++ pad2 rec.channel) ∧
    (∀ f row mStr s gt sx tr mv cv,
        getCol f "Monitor" row = some (some mStr) →
        getCol f "Channel" row = some (some ("ch" ++ s)) →
        getCol f "Genotype" row = some (some gt) →
        getCol f "Sex" row = some (some sx) →
        getCol f "Treatment" row = some (some tr) →
        (∀ c ∈ s.data, c.isDigit) →
        pyInt? mStr = some mv → pyInt? s = some cv →
        parseDetailsRow f row =
          some ⟨mv, cv, "M" ++ toString mv ++ "_Ch" ++ pad2 cv,
                some gt, some sx, some tr⟩) := by
  constructor
  · intro f out h rec hrec
    obtain ⟨row, _, hrow⟩ := parse_details_mem h hrec
    exact parseDetailsRow_flyId hrow
  · intro f row mStr s gt sx tr mv cv hM hC hG hS hT hdig hmv hcv
    unfold parseDetailsRow
    rw [hM, hC, hG, hS, hT]
    dsimp only
    rw [replaceCh_digits hdig, hmv, hcv]
    rfl

/-- Witness for C4: the second conjunct applied to a concrete well-formed
details row (Monitor "5", Channel "ch3", Genotype "w1118"). -/
theorem c4_fly_id_format_witness :
    parseDetailsRow ⟨exHeader, [["5", "ch3", "w1118", "M", "ctrl"]]⟩
        ["5", "ch3", "w1118", "M", "ctrl"] =
      some ⟨5, 3, "M" ++ toString (5 : Int) ++ "_Ch" ++ pad2 3,
            some "w1118", some "M", some "ctrl"⟩ :=
  c4_fly_id_format.2 ⟨exHeader, [["5", "ch3", "w1118", "M", "ctrl"]]⟩
    ["5", "ch3", "w1118", "M", "ctrl"] "5" "3" "w1118" "M" "ctrl" 5 3
    (by decide) (by decide) (by decide) (by decide) (by decide) (by decide)
    (by decide) (by decide)

/-- C5 (code bug): a details row whose Genotype cell is the literal string
"NA" is NOT excluded.  `pd.read_csv` converts the cell "NA" to a missing
value before the filter `fly_metadata['genotype'] != 'NA'` runs, the
missing value compares unequal to the string 'NA', and the row is retained
(it is written to fly_metadata.csv with an empty genotype).  The spec and
the code's own comment ("Remove rows with NA values") require the row to
be excluded. -/
theorem c5_na_row_is_retained :
    parse_details c5File =
      some [⟨5, 3, "M5_Ch03", none, some "M", some "ctrl"⟩] := by
  decide

/-- C6 counterexample: a details file that repeats (Monitor 5, Channel ch3)
on two rows parses successfully into two records sharing the
(monitor, channel) key, so the key is not unique for every input file. -/
theorem c6_counterexample :
    parse_details c6DupFile = some [c6RecM, c6RecF] ∧
    ¬ List.Pairwise mdKeyNe [c6RecM, c6RecF] :=
  ⟨by decide, fun h => (List.pairwise_cons.1 h).1 c6RecF (by simp) rfl⟩

/-- C6 (amended): the parser neither deduplicates nor checks the key, so
uniqueness of (monitor, channel) holds in the output exactly as inherited
from the input: whenever the records parsed from the rows are pairwise
key-distinct, the retained (filtered) output is pairwise key-distinct. -/
theorem c6_key_unique_of_input_unique :
    ∀ f recs out, optMap (parseDetailsRow f) f.rows = some recs →
      List.Pairwise mdKeyNe recs → parse_details f = some out →
      List.Pairwise mdKeyNe out := by
  intro f recs out hom hpw h
  unfold parse_details at h
  by_cases hcols : requiredCols.all (fun c => decide (c ∈ f.header)) = true
  · rw [if_pos hcols, hom] at h
    injection h with h
    subst h
    exact hpw.filter _
  · rw [if_neg hcols] at h; cases h

/-- Witness for C6: a two-row details file with distinct channels. -/
theorem c6_key_unique_of_input_unique_witness :
    List.Pairwise mdKeyNe
      [⟨5, 3, "M5_Ch03", some "w1118", some "M", some "ctrl"⟩,
       ⟨5, 4, "M5_Ch04", some "w1118", some "F", some "ctrl"⟩] :=
  c6_key_unique_of_input_unique
    ⟨exHeader, [["5", "ch3", "w1118", "M", "ctrl"], ["5", "ch4", "w1118", "F", "ctrl"]]⟩
    [⟨5, 3, "M5_Ch03", some "w1118", some "M", some "ctrl"⟩,
     ⟨5, 4, "M5_Ch04", some "w1118", some "F", some "ctrl"⟩]
    [⟨5, 3, "M5_Ch03", some "w1118", some "M", some "ctrl"⟩,
     ⟨5, 4, "M5_Ch04", some "w1118", some "F", some "ctrl"⟩]
    (by decide)
    (by simp [List.pairwise_cons, mdKeyNe])
    (by decide)

theorem filter_match_len {md : List FlyMetadataRecord}
    (hmd : List.Pairwise mdKeyNe md) (t : TSRecord) :
    (md.filter (fun m => decide (matchKey t m))).length ≤ 1 := by
  induction md with
  | nil => simp
  | cons m md ih =>
    obtain ⟨hm, hmd'⟩ := List.pairwise_cons.1 hmd
    by_cases hmt : matchKey t m
    · rw [List.filter_cons_of_pos (by simpa using hmt)]
      have hnil : md.filter (fun m => decide (matchKey t m)) = [] := by
        rw [List.filter_eq_nil_iff]
        intro x hx hpx
        have hmx : matchKey t x := by simpa using hpx
        apply hm x hx
        obtain ⟨h1, h2⟩ := hmt
        obtain ⟨h3, h4⟩ := hmx
        rw [h1, h2, h3, h4]
      rw [hnil]
      simp
    · rw [List.filter_cons_of_neg (by simpa using hmt)]
      exact ih hmd'

theorem filter_match_pos {md : List FlyMetadataRecord} {t : TSRecord} :
    0 < (md.filter (fun m => decide (matchKey t m))).length ↔
      ∃ m ∈ md, matchKey t m := by
  rw [List.length_pos_iff_exists_mem]
  constructor
  · rintro ⟨m, hm⟩
    obtain ⟨h1, h2⟩ := List.mem_filter.1 hm
    exact ⟨m, h1, by simpa using h2⟩
  · rintro ⟨m, h1, h2⟩
    exact ⟨m, List.mem_filter.2 ⟨h1, by simpa using h2⟩⟩

/-- C7 (amended): provided the metadata table carries pairwise-distinct
(monitor, channel) keys — true of a well-formed details file, though
`parse_details` does not enforce it (see the counterexample) — the inner
join has at most one output row per time-series row, so its row count
never exceeds the time-series row count, with equality exactly when every
time-series (monitor, channel) occurs in the metadata; and the join builds
a new table, leaving the time-series table itself untouched. -/
theorem c7_join_cardinality :
    ∀ ts md, List.Pairwise mdKeyNe md →
      (joinTS ts md).length ≤ ts.length ∧
      ((joinTS ts md).length = ts.length ↔
        ∀ t ∈ ts, ∃ m ∈ md, matchKey t m) := by
  intro ts md hmd
  induction ts with
  | nil => simp [joinTS]
  | cons t ts ih =>
    have hle := filter_match_len hmd t
    obtain ⟨ihle, ihiff⟩ := ih
    have hlen : (joinTS (t :: ts) md).length =
        (md.filter (fun m => decide (matchKey t m))).length + (joinTS ts md).length := by
      rw [joinTS]
      rw [List.length_append, List.length_map]
    constructor
    · rw [hlen, List.length_cons]
      omega
    · rw [hlen, List.length_cons, List.forall_mem_cons]
      constructor
      · intro h
        have h1 : (md.filter (fun m => decide (matchKey t m))).length = 1 := by omega
        have h2 : (joinTS ts md).length = ts.length := by omega
        exact ⟨filter_match_pos.1 (by omega), ihiff.1 h2⟩
      · rintro ⟨h1, h2⟩
        have := filter_match_pos.2 h1
        have := ihiff.2 h2
        omega

/-- C7 counterexample: a details file repeating the key (5, ch3) makes the
metadata table carry a duplicate key, and the join of a one-row
time-series table against it has two rows — more than the time-series
table — so the claim's unconditional bound fails on the code. -/
theorem c7_counterexample :
    parse_details c6DupFile = some [c6RecM, c6RecF] ∧
    parse_monitor_file [c7Row] 5 = some [c7Rec] ∧
    (joinTS [c7Rec] [c6RecM, c6RecF]).length = 2 ∧
    ([c7Rec] : List TSRecord).length = 1 := by
  refine ⟨by decide, by decide, by decide, by decide⟩

/-- Witness for C7: the amended bound applied to a concrete one-row join
with a unique-key metadata table. -/
theorem c7_join_cardinality_witness :
    (joinTS [c7Rec] [c6RecM]).length ≤ ([c7Rec] : List TSRecord).length :=
  (c7_join_cardinality [c7Rec] [c6RecM] (List.pairwise_singleton mdKeyNe c6RecM)).1

/-- C9 (amended): a monitor-log row is read against a layout of exactly 42
tab-separated columns — 10 fixed leading fields (id, date, time, port,
three unused fields, the movement type, two unused fields) followed by
the 32 channel columns for channels 1..32 in order — fixed by the first
row: a first row of any width other than 42 aborts, any later row wider
than 42 aborts, while a later row with fewer fields is padded with
missing values (and, lacking a movement type, is discarded).  Channel k's
value is taken from the k-th of the trailing 32 columns (witnessed at
both ends: channel 1 reads the 11th column and channel 32 the 42nd), and
a 42-column file is unaffected by an appended short row. -/
theorem c9_row_layout :
    (∀ (m : Int) (r0 : List String) rest, r0.length ≠ 42 →
        parse_monitor_file (r0 :: rest) m = none) ∧
    (∀ rows (m : Int) row, row ∈ rows → 42 < row.length →
        parse_monitor_file rows m = none) ∧
    parse_monitor_file [c9Row] 5 =
      some [⟨c1dt, 5, 1, 7, 0, 0⟩, ⟨c1dt, 5, 32, 9, 0, 0⟩] ∧
    parse_monitor_file [c9Row, ["1"]] 5 =
      some [⟨c1dt, 5, 1, 7, 0, 0⟩, ⟨c1dt, 5, 32, 9, 0, 0⟩] := by
  refine ⟨?_, ?_, by decide, by decide⟩
  · intro m r0 rest hlen
    unfold parse_monitor_file
    rw [if_neg]
    intro h
    unfold widthsOK at h
    simp only [Bool.and_eq_true] at h
    exact hlen (by simpa using h.1)
  · intro rows m row hrow hlen
    unfold parse_monitor_file
    rw [if_neg]
    intro h
    unfold widthsOK at h
    cases rows with
    | nil => cases hrow
    | cons r0 rest =>
      simp only [Bool.and_eq_true] at h
      rcases List.mem_cons.1 hrow with rfl | hmem
      · have : row.length = 42 := by simpa using h.1
        omega
      · have : row.length ≤ 42 := by
          simpa using (List.all_eq_true.1 h.2) row hmem
        omega

/-- C9 counterexample: a file in the very shape the claim describes — 41
columns, 9 fixed fields then 32 channel values — is rejected (the source
assigns 42 column names, so a 41-column frame raises at
`df.columns = columns`). -/
theorem c9_counterexample : parse_monitor_file [c9Row41] 5 = none := by
  decide

/-- Witness for C9: the first-row width conjunct applied to a one-cell
first row. -/
theorem c9_row_layout_witness : parse_monitor_file [["x"]] 5 = none :=
  c9_row_layout.1 5 ["x"] [] (by decide)

theorem find?_skip {α : Type} (p : α → Bool) :
    ∀ (l1 : List α) (x : α) (l2 : List α),
      (p x = false ∨ ∃ y ∈ l1, p y = true) →
      List.find? p (l1 ++ x :: l2) = List.find? p (l1 ++ l2) := by
  intro l1
  induction l1 with
  | nil =>
    intro x l2 h
    rcases h with h | ⟨y, hy, _⟩
    · simpa using List.find?_cons_of_neg l2 (p := p) (a := x) (by simp [h])
    · cases hy
  | cons a l1 ih =>
    intro x l2 h
    rw [List.cons_append, List.cons_append]
    cases hpa : p a with
    | true =>
      rw [List.find?_cons_of_pos _ hpa, List.find?_cons_of_pos _ hpa]
    | false =>
      rw [List.find?_cons_of_neg _ (by simp [hpa]),
        List.find?_cons_of_neg _ (by simp [hpa])]
      apply ih
      rcases h with h | ⟨y, hy, hpy⟩
      · exact Or.inl h
      · rcases List.mem_cons.1 hy with rfl | hy'
        · rw [hpy] at hpa; cases hpa
        · exact Or.inr ⟨y, hy', hpy⟩

theorem firstOfType_skip {g1 g2 : List (List String × DateTime)}
    {rd : List String × DateTime} (t : String)
    (hex : ∃ rd0 ∈ g1, movementOf rd0.1 = movementOf rd.1) :
    firstOfType (g1 ++ rd :: g2) t = firstOfType (g1 ++ g2) t := by
  have hcond : (fun rd' : List String × DateTime =>
        decide (movementOf rd'.1 = t)) rd = false ∨
      ∃ y ∈ g1, (fun rd' : List String × DateTime =>
        decide (movementOf rd'.1 = t)) y = true := by
    by_cases hrd : movementOf rd.1 = t
    · obtain ⟨rd0, h0, he⟩ := hex
      exact Or.inr ⟨rd0, h0, by simp [he, hrd]⟩
    · exact Or.inl (by simp [hrd])
  unfold firstOfType
  rw [find?_skip _ g1 rd g2 hcond]

/-- C10: when a group carries more than one row with the same movement
type, only the first such row's channel values are used — appending a
later duplicate row of an already-present type to a group leaves the
group's emitted records unchanged (ignored, not summed, overwritten or
rejected) — and on a concrete input with two MT rows (ch1 = 7 then
ch1 = 9) and one CT row in the same (id, date, time) group, the parser
succeeds with mt = 7: the duplicate's 9 is neither used nor added. -/
theorem c10_first_duplicate_used :
    (∀ (m : Int) (g1 g2 : List (List String × DateTime)) rd,
        g1 ≠ [] → (∃ rd0 ∈ g1, movementOf rd0.1 = movementOf rd.1) →
        emitGroup m (g1 ++ rd :: g2) = emitGroup m (g1 ++ g2)) ∧
    parse_monitor_file [c10MTfirst, c10MTdup, c10CT] 5 =
      some [⟨c1dt, 5, 1, 7, 1, 0⟩] := by
  constructor
  · intro m g1 g2 rd hne hex
    have hfix : ∀ t, firstOfType (g1 ++ rd :: g2) t = firstOfType (g1 ++ g2) t :=
      fun t => firstOfType_skip t hex
    cases g1 with
    | nil => exact absurd rfl hne
    | cons a g1' =>
      obtain ⟨r0, dt⟩ := a
      simp only [List.cons_append] at hfix ⊢
      rw [emitGroup, emitGroup]
      have hch : optMap (emitChannel m dt ((r0, dt) :: (g1' ++ rd :: g2)))
            (List.range' 1 32) =
          optMap (emitChannel m dt ((r0, dt) :: (g1' ++ g2)))
            (List.range' 1 32) := by
        apply optMap_congr
        intro c _
        unfold emitChannel
        rw [hfix "MT", hfix "CT", hfix "Pn"]
      rw [hch]
  · decide

/-- Witness for C10: appending a duplicate MT row to a one-row group does
not change the emitted records. -/
theorem c10_first_duplicate_used_witness :
    emitGroup 5 ([(c10MTfirst, c1dt)] ++ (c10MTdup, c1dt) :: []) =
      emitGroup 5 ([(c10MTfirst, c1dt)] ++ []) :=
  c10_first_duplicate_used.1 5 [(c10MTfirst, c1dt)] [] (c10MTdup, c1dt)
    (by simp) ⟨(c10MTfirst, c1dt), by simp, rfl⟩

end FlySleep
